import Mathlib

/-!
Verification development for the telemetry-opcua-exporter repository.

Shallow embedding of the core logic: endpoint/security negotiation
(client findEndpoint and authenticationOptions), metrics configuration
validation (config MetricsConfig.validate), metric cache building
(collector loadMetricsCache), the poll cycle (collector Collect,
scrapeTarget, getOpcuaValueFromIndex), and the reload flow
(collector ReloadMetrics, config LoadMetricsConfig, main reloadConfigHandler).

External collaborators are modelled as parameters or small faithful
models: the opcua GetEndpoints discovery result is passed in as a list,
the batched Read of the session is a function parameter, node-id parsing
(ua.ParseNodeID) is a function parameter, file reading and yaml
unmarshalling are parameters.  Go maps used for metric labels are
modelled as association lists iterated in list order.  Durations and
floating-point sample values are modelled as integers; no claim depends
on numeric coercion.
-/

namespace OpcuaExporter

/-! ### Go string helpers, modelled on character lists -/

/-- Model of strings.ToLower restricted to what the code needs. -/
def strToLower (s : String) : String := String.mk (s.data.map Char.toLower)

/-- Model of strings.HasPrefix. -/
def strHasPref (s pre : String) : Bool := List.isPrefixOf pre.data s.data

/-- Containment of one character list in another: sub occurs as a
contiguous run of s. -/
def listContainsSub (sub : List Char) : List Char → Bool
  | [] => List.isPrefixOf sub []
  | c :: t => List.isPrefixOf sub (c :: t) || listContainsSub sub t

/-- Model of strings.Contains. -/
def strContains (s sub : String) : Bool := listContainsSub sub.data s.data

/-! ### ua library constants and types (external, modelled from gopcua) -/

/-- ua.SecurityPolicyURIPrefix. -/
def SecurityPolicyPrefixURI : String := "http://opcfoundation.org/UA/SecurityPolicy#"

/-- ua.SecurityPolicyURINone. -/
def SecurityPolicyNoneURI : String := SecurityPolicyPrefixURI ++ "None"

/-- ua.MessageSecurityMode ordinals: Invalid, None, Sign, SignAndEncrypt. -/
def MessageSecurityModeInvalid : Nat := 0

def MessageSecurityModeNone : Nat := 1

def MessageSecurityModeSign : Nat := 2

def MessageSecurityModeSignAndEncrypt : Nat := 3

/-- ua.UserTokenType. -/
inductive UserTokenType where
  | anonymous
  | userName
  | certificate
  | issuedToken
  deriving DecidableEq, Repr

/-- ua.UserTokenTypeFromString (external, modelled from gopcua): lowercases
the string and maps the known names, anything else to anonymous. -/
def UserTokenTypeFromString (s : String) : UserTokenType :=
  match strToLower s with
  | "anonymous" => UserTokenType.anonymous
  | "username" => UserTokenType.userName
  | "certificate" => UserTokenType.certificate
  | "issuedtoken" => UserTokenType.issuedToken
  | _ => UserTokenType.anonymous

/-- ua.UserTokenPolicy: only the token type matters to the exporter. -/
structure UserTokenPolicy where
  tokenType : UserTokenType
  deriving DecidableEq, Repr

/-- ua.EndpointDescription, the fields read by the exporter. -/
structure EndpointDescription where
  endpointURL : String
  securityPolicyURI : String
  securityMode : Nat
  securityLevel : Nat
  userIdentityTokens : List UserTokenPolicy
  deriving DecidableEq, Repr

/-! ### config.ServerConfig -/

/-- config.ServerConfig. -/
structure ServerConfig where
  endpoint : String
  certPath : String
  keyPath : String
  secPolicy : String
  secMode : String
  authMode : String
  username : String
  password : String
  deriving DecidableEq, Repr

/-! ### client findEndpoint (endpoint negotiation) -/

/-- Failures of findEndpoint (log.Fatal sites in the source). -/
inductive FindEndpointError where
  | invalidSecurityPolicy (s : String)
  | invalidSecurityMode (s : String)
  | noSuitableEndpoint
  deriving DecidableEq, Repr

/-- Policy resolution switch of findEndpoint: auto leaves the policy at its
zero value, a full URI is kept, a known bare suffix is expanded, anything
else is fatal. -/
def resolvePolicy (p : String) : Except FindEndpointError String :=
  if p == "auto" then Except.ok ""
  else if strHasPref p SecurityPolicyPrefixURI then Except.ok p
  else if p == "None" || p == "Basic128Rsa15" || p == "Basic256" ||
          p == "Basic256Sha256" || p == "Aes128_Sha256_RsaOaep" ||
          p == "Aes256_Sha256_RsaPss" then
    Except.ok (SecurityPolicyPrefixURI ++ p)
  else Except.error (FindEndpointError.invalidSecurityPolicy p)

/-- Mode resolution switch of findEndpoint, on the lowercased mode; auto
leaves the mode at its zero value (Invalid). -/
def resolveMode (m : String) : Except FindEndpointError Nat :=
  match strToLower m with
  | "auto" => Except.ok MessageSecurityModeInvalid
  | "none" => Except.ok MessageSecurityModeNone
  | "sign" => Except.ok MessageSecurityModeSign
  | "signandencrypt" => Except.ok MessageSecurityModeSignAndEncrypt
  | _ => Except.error (FindEndpointError.invalidSecurityMode m)

/-- The all-or-nothing security-none rule of findEndpoint. -/
def forceNone (mode : Nat) (policy : String) : Nat × String :=
  if mode == MessageSecurityModeNone || policy == SecurityPolicyNoneURI then
    (MessageSecurityModeNone, SecurityPolicyNoneURI)
  else (mode, policy)

/-- One step of the unconstrained (auto/auto) scan loop: a candidate
replaces the incumbent when both its securityMode and its securityLevel
are greater or equal. -/
def bestAutoFold (best : Option EndpointDescription) (e : EndpointDescription) :
    Option EndpointDescription :=
  match best with
  | none => some e
  | some b =>
    if b.securityMode ≤ e.securityMode ∧ b.securityLevel ≤ e.securityLevel then some e
    else some b

/-- The unconstrained scan loop of findEndpoint. -/
def bestAuto (ee : List EndpointDescription) : Option EndpointDescription :=
  ee.foldl bestAutoFold none

/-- One step of the constrained scan loops: a candidate replaces the
incumbent when its securityLevel is greater or equal. -/
def bestFold (best : Option EndpointDescription) (e : EndpointDescription) :
    Option EndpointDescription :=
  match best with
  | none => some e
  | some b => if b.securityLevel ≤ e.securityLevel then some e else some b

/-- The three constrained scan loops of findEndpoint, which differ only in
the filter applied to each candidate. -/
def bestFiltered (accept : EndpointDescription → Bool)
    (ee : List EndpointDescription) : Option EndpointDescription :=
  ee.foldl (fun best e => if accept e then bestFold best e else best) none

/-- The four-way selection switch of findEndpoint, routed on the raw
config strings as in the source. -/
def selectEndpoint (c : ServerConfig) (mode : Nat) (policy : String)
    (ee : List EndpointDescription) : Option EndpointDescription :=
  if c.secMode == "auto" && c.secPolicy == "auto" then bestAuto ee
  else if !(c.secMode == "auto") && c.secPolicy == "auto" then
    bestFiltered (fun e => e.securityMode == mode) ee
  else if c.secMode == "auto" && !(c.secPolicy == "auto") then
    bestFiltered (fun e => e.securityPolicyURI == policy) ee
  else
    bestFiltered (fun e => e.securityPolicyURI == policy && e.securityMode == mode) ee

/-- Whether an endpoint advertises the given user token type. -/
def supportsToken (ep : EndpointDescription) (utt : UserTokenType) : Bool :=
  ep.userIdentityTokens.any (fun t => t.tokenType == utt)

/-- Tail of findEndpoint after mode and policy are settled: scan, then
require the survivor to advertise the requested auth token type. -/
def negotiate (c : ServerConfig) (mode : Nat) (policy : String)
    (ee : List EndpointDescription) : Except FindEndpointError EndpointDescription :=
  match selectEndpoint c mode policy ee with
  | some ep =>
    if supportsToken ep (UserTokenTypeFromString c.authMode) then Except.ok ep
    else Except.error FindEndpointError.noSuitableEndpoint
  | none => Except.error FindEndpointError.noSuitableEndpoint

/-- client findEndpoint, with the discovered endpoint list passed in
(opcua.GetEndpoints is external I/O). -/
def findEndpoint (c : ServerConfig) (ee : List EndpointDescription) :
    Except FindEndpointError EndpointDescription :=
  match resolvePolicy c.secPolicy with
  | Except.error e => Except.error e
  | Except.ok policy0 =>
    match resolveMode c.secMode with
    | Except.error e => Except.error e
    | Except.ok mode0 =>
      negotiate c (forceNone mode0 policy0).1 (forceNone mode0 policy0).2 ee

/-! ### client authenticationOptions -/

/-- opcua client options appended by the client package; payloads that no
claim inspects are omitted. -/
inductive OpcuaOption where
  | authCertificate
  | authUsername (user pass : String)
  | authAnonymous
  | securityFromEndpoint (ep : EndpointDescription) (tok : UserTokenType)
  | lifetimeMinutes (n : Nat)
  | requestTimeoutSeconds (n : Nat)
  | autoReconnect (b : Bool)
  deriving DecidableEq, Repr

/-- client authenticationOptions: the auth switch appends one credential
option (defaulting to anonymous), then SecurityFromEndpoint is appended
with the token type resolved from the auth mode string. -/
def authenticationOptions (c : ServerConfig) (e : EndpointDescription) :
    List OpcuaOption :=
  (match c.authMode with
   | "Certificate" => [OpcuaOption.authCertificate]
   | "UserName" => [OpcuaOption.authUsername c.username c.password]
   | _ => [OpcuaOption.authAnonymous]) ++
  [OpcuaOption.securityFromEndpoint e (UserTokenTypeFromString c.authMode)]

/-! ### config metrics configuration -/

/-- config.Metric: one metric record of the metrics configuration. -/
structure Metric where
  name : String
  help : String
  nodeID : String
  labels : List (String × String)
  typ : String
  deriving DecidableEq, Repr

/-- config.MetricsConfig. -/
structure MetricsConfig where
  metrics : List Metric
  deriving DecidableEq, Repr

/-- Loop body of MetricsConfig.validate, carrying the metric index used in
the error messages. -/
def validateMetricsFrom : Nat → List Metric → Except String Unit
  | _, [] => Except.ok ()
  | i, m :: rest =>
    if m.name == "" then
      Except.error ("missing field name in metrics configuration of metric " ++ toString i)
    else if m.help == "" then
      Except.error ("missing field help in metrics configuration of metric " ++ toString i)
    else if m.nodeID == "" then
      Except.error ("missing field nodeValue in metrics configuration of metric " ++ toString i)
    else if m.typ == "" then
      Except.error ("missing field type in metrics configuration of metric " ++ toString i)
    else validateMetricsFrom (i + 1) rest

/-- config MetricsConfig.validate. -/
def MetricsConfig.validate (mm : MetricsConfig) : Except String Unit :=
  if mm.metrics.length == 0 then
    Except.error "missing field metrics in top configuration"
  else validateMetricsFrom 0 mm.metrics

/-! ### collector metric cache -/

/-- ua.NodeID, kept abstract: only parse success or failure matters. -/
structure UaNodeID where
  raw : String
  deriving DecidableEq, Repr

/-- prometheus.Desc as built by prometheus.NewDesc(name, help, keys, nil). -/
structure PromDesc where
  fqName : String
  help : String
  variableLabels : List String
  deriving DecidableEq, Repr

/-- prometheus.ValueType. -/
inductive ValueType where
  | counter
  | gauge
  | untyped
  deriving DecidableEq, Repr

/-- collector metricProperties. -/
structure MetricProperties where
  desc : PromDesc
  typ : ValueType
  labels : List (String × String)
  labelsKeys : List String
  labelsValues : List String
  deriving DecidableEq, Repr

/-- collector metric (the prometheus-facing part of a cache entry). -/
structure PMetric where
  name : String
  properties : MetricProperties
  deriving DecidableEq, Repr

/-- collector opcuaMetric: one metric cache entry. -/
structure OpcuaMetric where
  metric : PMetric
  nodeID : String
  nodeReadValueID : UaNodeID
  deriving DecidableEq, Repr

/-- collector getMetricValueType: lenient value-kind mapping. -/
def getMetricValueType (metricType : String) : ValueType :=
  match metricType with
  | "counter" => ValueType.counter
  | "gauge" => ValueType.gauge
  | "Float" => ValueType.gauge
  | "Double" => ValueType.gauge
  | _ => ValueType.untyped

/-- collector newMetric; the Go label map is an association list iterated
in list order, so keys and values stay parallel. -/
def newMetric (name help : String) (typ : ValueType)
    (labels : List (String × String)) : PMetric :=
  { name := name
    properties :=
      { desc := { fqName := name, help := help, variableLabels := labels.map Prod.fst }
        typ := typ
        labels := labels
        labelsKeys := labels.map Prod.fst
        labelsValues := labels.map Prod.snd } }

/-- Loop of collector loadMetricsCache: parse every node id, abort
wholesale on the first failure, preserve input order.  ua.ParseNodeID is
external and passed in as parse. -/
def buildCache (parse : String → Option UaNodeID) :
    List Metric → Except String (List OpcuaMetric)
  | [] => Except.ok []
  | m :: rest =>
    match parse m.nodeID with
    | none => Except.error "invalid node id"
    | some nid =>
      match buildCache parse rest with
      | Except.error e => Except.error e
      | Except.ok mm =>
        Except.ok ({ nodeID := m.nodeID
                     nodeReadValueID := nid
                     metric := newMetric m.name m.help (getMetricValueType m.typ) m.labels } :: mm)

/-- collector.Collector: the session handle is opaque, the logger is
external I/O and omitted. -/
structure Collector where
  serverConfig : ServerConfig
  opcuaClient : Nat
  opcuaMetricsCache : List OpcuaMetric
  statsMetricsCache : List PMetric
  errorDesc : PromDesc
  deriving DecidableEq, Repr

/-- collector loadMetricsCache as a method: on success the cache field is
replaced wholesale, on failure the collector is untouched and the error
returned. -/
def Collector.loadMetricsCache (parse : String → Option UaNodeID)
    (c : Collector) (cfg : MetricsConfig) : Collector × Except String Unit :=
  match buildCache parse cfg.metrics with
  | Except.error e => (c, Except.error e)
  | Except.ok mm => ({ c with opcuaMetricsCache := mm }, Except.ok ())

/-- collector ReloadMetrics: calls loadMetricsCache and discards its
return value, as in the source. -/
def Collector.ReloadMetrics (parse : String → Option UaNodeID)
    (c : Collector) (cfg : MetricsConfig) : Collector :=
  (c.loadMetricsCache parse cfg).1

/-! ### collector poll cycle -/

/-- ua.StatusOK. -/
def StatusOK : Nat := 0

/-- One read result: status code plus the value, with the float coercion
of Value.Float abstracted to an integer payload. -/
structure DataValue where
  status : Nat
  value : Int
  deriving DecidableEq, Repr

/-- ua.ReadResponse. -/
structure ReadResponse where
  results : List DataValue
  deriving DecidableEq, Repr

/-- Error payload of a prometheus invalid metric as built by the
collector: either the request-level scrape error, or the per-metric error
carrying the metric name, its labels and a cause. -/
inductive ErrPayload where
  | scrapeErr (msg : String)
  | metricErr (name : String) (labels : List (String × String)) (cause : String)
  deriving DecidableEq, Repr

/-- One emitted sample: prometheus.NewInvalidMetric or
prometheus.NewConstMetric. -/
inductive Sample where
  | invalid (desc : PromDesc) (err : ErrPayload)
  | const (desc : PromDesc) (typ : ValueType) (value : Int) (labelValues : List String)
  deriving DecidableEq, Repr

/-- collector getErrorMetric: an invalid metric on the collector error
descriptor, carrying the metric name and labels. -/
def getErrorMetric (c : Collector) (m : PMetric) (cause : String) : Sample :=
  Sample.invalid c.errorDesc (ErrPayload.metricErr m.name m.properties.labels cause)

/-- collector getMetricWithValue: NewConstMetric, which fails back to an
error metric when the label cardinality is inconsistent. -/
def getMetricWithValue (c : Collector) (m : PMetric) (value : Int) : Sample :=
  if m.properties.labelsValues.length == m.properties.desc.variableLabels.length then
    Sample.const m.properties.desc m.properties.typ value m.properties.labelsValues
  else getErrorMetric c m "inconsistent label cardinality"

/-- The node ids of the batched read request built by scrapeTarget. -/
def nodeIDsOf (c : Collector) : List UaNodeID :=
  c.opcuaMetricsCache.map (fun m => m.nodeReadValueID)

/-- collector scrapeTarget: one batched read over every cache entry; the
session Read call is external and passed in as read. -/
def scrapeTarget (read : List UaNodeID → Except String ReadResponse)
    (c : Collector) : Except String ReadResponse :=
  read (nodeIDsOf c)

/-- collector getOpcuaValueFromIndex; the Go code indexes Results
unconditionally (a short response would panic), modelled as an error. -/
def getOpcuaValueFromIndex (resp : ReadResponse) (idx : Nat) : Except String Int :=
  match resp.results.get? idx with
  | none => Except.error "index out of range"
  | some r =>
    if r.status == StatusOK then Except.ok r.value
    else Except.error ("invalid status " ++ toString r.status)

/-- The per-index sample of the Collect loop: entry i of the cache
combined with result i of the response. -/
def pairSample (c : Collector) (om : OpcuaMetric) (r : DataValue) : Sample :=
  if r.status == StatusOK then getMetricWithValue c om.metric r.value
  else getErrorMetric c om.metric ("invalid status " ++ toString r.status)

/-- The per-metric loop of Collect: for idx, m := range cache, one sample
per entry from result idx. -/
def perMetricLoop (c : Collector) (resp : ReadResponse) :
    Nat → List OpcuaMetric → List Sample
  | _, [] => []
  | idx, om :: rest =>
    (match getOpcuaValueFromIndex resp idx with
     | Except.error e => getErrorMetric c om.metric e
     | Except.ok v => getMetricWithValue c om.metric v) ::
    perMetricLoop c resp (idx + 1) rest

/-- The per-metric samples of one poll round. -/
def perMetricSamples (c : Collector) (resp : ReadResponse) : List Sample :=
  perMetricLoop c resp 0 c.opcuaMetricsCache

/-- Values of the fixed instrumentation metrics, by name; durations are
passed in (real time is external). -/
def statValue (resp : ReadResponse) (readDuration walkDuration scrapeDuration : Int)
    (name : String) : Int :=
  if name == "opcua_client_read_duration_seconds" then readDuration
  else if name == "opcua_scrape_walk_duration_seconds" then walkDuration
  else if name == "opcua_scrape_resp_returned" then Int.ofNat resp.results.length
  else if name == "opcua_scrape_duration_seconds" then scrapeDuration
  else 0

/-- collector Collect: a failed batched read yields a single invalid
sample and the round ends; a successful read yields one sample per cache
entry, positionally, followed by the instrumentation samples. -/
def Collect (read : List UaNodeID → Except String ReadResponse)
    (readDuration walkDuration scrapeDuration : Int) (c : Collector) : List Sample :=
  match scrapeTarget read c with
  | Except.error e => [Sample.invalid c.errorDesc (ErrPayload.scrapeErr e)]
  | Except.ok resp =>
    perMetricSamples c resp ++
    c.statsMetricsCache.map (fun m =>
      getMetricWithValue c m (statValue resp readDuration walkDuration scrapeDuration m.name))

/-- Whether a sample is an invalid (error) sample. -/
def isInvalidSample : Sample → Bool
  | Sample.invalid _ _ => true
  | Sample.const _ _ _ _ => false

/-- Whether a data value has a non-Good status. -/
def isBadStatus (r : DataValue) : Bool := !(r.status == StatusOK)

/-- Label cardinality consistency of a cache entry, the condition under
which NewConstMetric succeeds; entries built by newMetric satisfy it. -/
def wellLabeled (m : PMetric) : Bool :=
  m.properties.labelsValues.length == m.properties.desc.variableLabels.length

/-! ### config LoadMetricsConfig and the reload flow -/

/-- config LoadMetricsConfig, returning the metrics configuration state
after the call together with the returned error.  File reading and yaml
unmarshalling are external and passed in.  A read error whose message
contains the no-such-file marker is swallowed and the current
configuration kept; otherwise unmarshal then validate, each error
aborting (the unmarshalled configuration is already installed when
validation fails, as in the source where Unserialize mutates in place). -/
def LoadMetricsConfig (readResult : Except String String)
    (unserialize : String → Except String MetricsConfig)
    (current : MetricsConfig) : MetricsConfig × Option String :=
  match readResult with
  | Except.error msg =>
    if strContains msg "no such file or directory" then (current, none)
    else (current, some msg)
  | Except.ok content =>
    match unserialize content with
    | Except.error e => (current, some e)
    | Except.ok mc =>
      match mc.validate with
      | Except.error e => (mc, some e)
      | Except.ok _ => (mc, none)

/-- main reloadConfigHandler (POST branch, updateFromBody false):
sendReloadChannel runs SafeConfig.reloadConfig, which is LoadMetricsConfig
on the current configuration; on error the handler records an HTTP error
but continues; it then calls ReloadMetrics on the resulting metrics
configuration and re-registers the collector.  Returns the configuration
state, the collector state, and the error reported to the caller. -/
def reloadConfigHandler (readResult : Except String String)
    (unserialize : String → Except String MetricsConfig)
    (parse : String → Option UaNodeID)
    (current : MetricsConfig) (c : Collector) :
    MetricsConfig × Collector × Option String :=
  let r := LoadMetricsConfig readResult unserialize current
  (r.1, Collector.ReloadMetrics parse c r.1,
   r.2.map (fun e => "failed to reload config: " ++ e))

/-! ### Spec-side selection definitions, for comparison with the code -/

/-- Strict lexicographic comparison of the (securityMode, securityLevel)
pair, as the spec words describe the selection key. -/
def lexGt (e b : EndpointDescription) : Bool :=
  decide (b.securityMode < e.securityMode) ||
  (decide (b.securityMode = e.securityMode) && decide (b.securityLevel < e.securityLevel))

/-- Modelled from the spec words of the selection claim, for comparison
with selectEndpoint: among candidates passing the active filter, the one
maximal in the lexicographic (securityMode, securityLevel) pair, a
strictly-greater comparison keeping the first-seen candidate on ties. -/
def specSelectEndpoint (c : ServerConfig) (mode : Nat) (policy : String)
    (ee : List EndpointDescription) : Option EndpointDescription :=
  let accept : EndpointDescription → Bool :=
    if c.secMode == "auto" && c.secPolicy == "auto" then fun _ => true
    else if !(c.secMode == "auto") && c.secPolicy == "auto" then
      fun e => e.securityMode == mode
    else if c.secMode == "auto" && !(c.secPolicy == "auto") then
      fun e => e.securityPolicyURI == policy
    else fun e => e.securityPolicyURI == policy && e.securityMode == mode
  (ee.filter accept).foldl (fun best e =>
    match best with
    | none => some e
    | some b => if lexGt e b then some e else some b) none

/-- The last element of a list whose securityLevel is maximal in it. -/
def lastMaxLevel (l : List EndpointDescription) : Option EndpointDescription :=
  (l.filter (fun e => l.all (fun x => decide (x.securityLevel ≤ e.securityLevel)))).getLast?

/-- Modelled from the amended reading of the selection claim: among
candidates passing the filter, the last one with maximal securityLevel. -/
def specLastBest (accept : EndpointDescription → Bool)
    (ee : List EndpointDescription) : Option EndpointDescription :=
  lastMaxLevel (ee.filter accept)

/-! ### Concrete inputs used by witnesses and counterexamples -/

def cfgAutoAuto : ServerConfig :=
  { endpoint := "opc.tcp://srv:4840", certPath := "", keyPath := ""
    secPolicy := "auto", secMode := "auto", authMode := "Anonymous"
    username := "", password := "" }

def epNoneLevel9 : EndpointDescription :=
  { endpointURL := "opc.tcp://srv:4840/a", securityPolicyURI := "pA"
    securityMode := 1, securityLevel := 9
    userIdentityTokens := [{ tokenType := UserTokenType.anonymous }] }

def epSignLevel5 : EndpointDescription :=
  { endpointURL := "opc.tcp://srv:4840/b", securityPolicyURI := "pB"
    securityMode := 2, securityLevel := 5
    userIdentityTokens := [{ tokenType := UserTokenType.anonymous }] }

def cfgSignAuto : ServerConfig := { cfgAutoAuto with secMode := "Sign" }

def epSignA : EndpointDescription :=
  { endpointURL := "opc.tcp://srv:4840/c", securityPolicyURI := "pC"
    securityMode := 2, securityLevel := 1
    userIdentityTokens := [{ tokenType := UserTokenType.anonymous }] }

def epSignB : EndpointDescription :=
  { endpointURL := "opc.tcp://srv:4840/d", securityPolicyURI := "pD"
    securityMode := 2, securityLevel := 1
    userIdentityTokens := [{ tokenType := UserTokenType.anonymous }] }

def cfgNoneAuto : ServerConfig := { cfgAutoAuto with secMode := "none" }

def cfgUserAuto : ServerConfig := { cfgAutoAuto with authMode := "UserName" }

def epLowUser : EndpointDescription :=
  { endpointURL := "opc.tcp://srv:4840/l", securityPolicyURI := "pL"
    securityMode := 1, securityLevel := 1
    userIdentityTokens := [{ tokenType := UserTokenType.userName }] }

def epHighAnon : EndpointDescription :=
  { endpointURL := "opc.tcp://srv:4840/h", securityPolicyURI := "pH"
    securityMode := 3, securityLevel := 9
    userIdentityTokens := [{ tokenType := UserTokenType.anonymous }] }

def cfgEmptyUser : ServerConfig :=
  { cfgAutoAuto with authMode := "UserName", username := "", password := "pw" }

/-- A concrete stand-in for ua.ParseNodeID: accepts everything except the
literal string bogus. -/
def parseW : String → Option UaNodeID :=
  fun s => if s == "bogus" then none else some { raw := s }

def metricW1 : Metric :=
  { name := "m1", help := "h1", nodeID := "ns=1;s=a", labels := [("k", "v")], typ := "gauge" }

def metricW2 : Metric :=
  { name := "m2", help := "h2", nodeID := "ns=1;s=b", labels := [], typ := "counter" }

def metricW3 : Metric :=
  { name := "m3", help := "h3", nodeID := "ns=1;s=c", labels := [("x", "y")], typ := "Float" }

def cfgMetricsW : MetricsConfig := { metrics := [metricW1, metricW2, metricW3] }

def entryW1 : OpcuaMetric :=
  { nodeID := "ns=1;s=a", nodeReadValueID := { raw := "ns=1;s=a" }
    metric := newMetric "m1" "h1" ValueType.gauge [("k", "v")] }

def entryW2 : OpcuaMetric :=
  { nodeID := "ns=1;s=b", nodeReadValueID := { raw := "ns=1;s=b" }
    metric := newMetric "m2" "h2" ValueType.counter [] }

def entryW3 : OpcuaMetric :=
  { nodeID := "ns=1;s=c", nodeReadValueID := { raw := "ns=1;s=c" }
    metric := newMetric "m3" "h3" ValueType.gauge [("x", "y")] }

def errorDescW : PromDesc :=
  { fqName := "opcua_error", help := "error scraping target", variableLabels := [] }

def colW : Collector :=
  { serverConfig := cfgAutoAuto, opcuaClient := 7
    opcuaMetricsCache := [entryW1, entryW2, entryW3]
    statsMetricsCache :=
      [newMetric "opcua_scrape_walk_duration_seconds" "Time OPCUA walk/bulkwalk took." ValueType.gauge [],
       newMetric "opcua_scrape_resp_returned" "RESPs returned from walk." ValueType.gauge [],
       newMetric "opcua_scrape_duration_seconds" "Total OPCUA time scrape took (walk and processing)." ValueType.gauge [],
       newMetric "opcua_client_read_duration_seconds" "Time OPCUA to reconnect took." ValueType.gauge []]
    errorDesc := errorDescW }

def respW : ReadResponse :=
  { results := [{ status := 0, value := 11 }, { status := 5, value := 0 },
                { status := 0, value := 33 }] }

def readW : List UaNodeID → Except String ReadResponse := fun _ => Except.ok respW

def readFailW : List UaNodeID → Except String ReadResponse := fun _ => Except.error "boom"

def colOld : Collector :=
  { serverConfig := cfgAutoAuto, opcuaClient := 7
    opcuaMetricsCache := [entryW1], statsMetricsCache := [], errorDesc := errorDescW }

def cfgOldMetrics : MetricsConfig := { metrics := [metricW1] }

def metricBad : Metric :=
  { name := "mBad", help := "hB", nodeID := "bogus", labels := [], typ := "gauge" }

def cfgBad : MetricsConfig := { metrics := [metricBad] }

def unserBad : String → Except String MetricsConfig := fun _ => Except.ok cfgBad

def msgNoFile : String := "open opcua.yaml: no such file or directory"

/-! ## Helper lemmas about the selection scans -/

theorem bestFold_some (l : List EndpointDescription) (b : EndpointDescription) :
    ∃ r, List.foldl bestFold (some b) l = some r ∧
      b.securityLevel ≤ r.securityLevel ∧ (r = b ∨ r ∈ l) ∧
      ∀ x ∈ l, x.securityLevel ≤ r.securityLevel := by
  induction l generalizing b with
  | nil => exact ⟨b, rfl, le_refl _, Or.inl rfl, by simp⟩
  | cons e t ih =>
    rw [List.foldl_cons]
    by_cases hbe : b.securityLevel ≤ e.securityLevel
    · have hstep : bestFold (some b) e = some e := by simp [bestFold, hbe]
      rw [hstep]
      obtain ⟨r, hr, hle, hmem, hall⟩ := ih e
      refine ⟨r, hr, le_trans hbe hle, ?_, ?_⟩
      · rcases hmem with h | h
        · exact Or.inr (by simp [h])
        · exact Or.inr (List.mem_cons_of_mem _ h)
      · intro x hx
        rcases List.mem_cons.mp hx with h | h
        · rw [h]; exact hle
        · exact hall x h
    · have hstep : bestFold (some b) e = some b := by simp [bestFold, hbe]
      rw [hstep]
      obtain ⟨r, hr, hle, hmem, hall⟩ := ih b
      refine ⟨r, hr, hle, ?_, ?_⟩
      · rcases hmem with h | h
        · exact Or.inl h
        · exact Or.inr (List.mem_cons_of_mem _ h)
      · intro x hx
        rcases List.mem_cons.mp hx with h | h
        · rw [h]
          exact le_of_lt (lt_of_lt_of_le (Nat.lt_of_not_le hbe) hle)
        · exact hall x h

theorem bestLevel_none_some (l : List EndpointDescription) (b : EndpointDescription)
    (h : List.foldl bestFold none l = some b) :
    b ∈ l ∧ ∀ x ∈ l, x.securityLevel ≤ b.securityLevel := by
  cases l with
  | nil => simp at h
  | cons e t =>
    rw [List.foldl_cons, show bestFold none e = some e from rfl] at h
    obtain ⟨r, hr, hle, hmem, hall⟩ := bestFold_some t e
    rw [hr] at h
    have hrb : r = b := Option.some.inj h
    subst hrb
    constructor
    · rcases hmem with h' | h'
      · rw [h']; exact List.mem_cons_self _ _
      · exact List.mem_cons_of_mem _ h'
    · intro x hx
      rcases List.mem_cons.mp hx with h' | h'
      · rw [h']; exact hle
      · exact hall x h'

theorem bestLevel_none (l : List EndpointDescription)
    (h : List.foldl bestFold none l = none) : l = [] := by
  cases l with
  | nil => rfl
  | cons e t =>
    rw [List.foldl_cons, show bestFold none e = some e from rfl] at h
    obtain ⟨r, hr, _, _, _⟩ := bestFold_some t e
    rw [hr] at h
    simp at h

theorem bestLevel_eq_lastMax (l : List EndpointDescription) :
    List.foldl bestFold none l = lastMaxLevel l := by
  induction l using List.reverseRecOn with
  | nil => rfl
  | append_singleton t e ih =>
    rw [List.foldl_append]
    by_cases hall : t.all (fun x => decide (x.securityLevel ≤ e.securityLevel)) = true
    · have hcond : ((t ++ [e]).all
          (fun x => decide (x.securityLevel ≤ e.securityLevel))) = true := by
        rw [List.all_append]; simp [hall]
      have hrhs : lastMaxLevel (t ++ [e]) = some e := by
        unfold lastMaxLevel
        rw [List.filter_append]
        have hfe : [e].filter (fun x => (t ++ [e]).all
            (fun y => decide (y.securityLevel ≤ x.securityLevel))) = [e] := by
          simp only [List.filter, hcond]
        rw [hfe, List.getLast?_concat]
      rw [hrhs]
      cases htf : List.foldl bestFold none t with
      | none => rfl
      | some b =>
        have hb := bestLevel_none_some t b htf
        have hble : b.securityLevel ≤ e.securityLevel :=
          of_decide_eq_true (List.all_eq_true.mp hall b hb.1)
        simp [bestFold, hble]
    · have hallf : t.all (fun x => decide (x.securityLevel ≤ e.securityLevel)) = false :=
        eq_false_of_ne_true hall
      have hex : ∃ m ∈ t, ¬ (m.securityLevel ≤ e.securityLevel) := by
        by_contra hc
        push_neg at hc
        apply hall
        rw [List.all_eq_true]
        intro x hx
        exact decide_eq_true (hc x hx)
      obtain ⟨m, hmt, hme⟩ := hex
      have hml : e.securityLevel < m.securityLevel := Nat.lt_of_not_le hme
      have hcondE : ((t ++ [e]).all
          (fun x => decide (x.securityLevel ≤ e.securityLevel))) = false := by
        rw [List.all_append, hallf]
        rfl
      have hrhs : lastMaxLevel (t ++ [e]) = lastMaxLevel t := by
        unfold lastMaxLevel
        rw [List.filter_append]
        have hfe : [e].filter (fun x => (t ++ [e]).all
            (fun y => decide (y.securityLevel ≤ x.securityLevel))) = [] := by
          simp only [List.filter, hcondE]
        have hft : t.filter (fun x => (t ++ [e]).all
              (fun y => decide (y.securityLevel ≤ x.securityLevel))) =
            t.filter (fun x => t.all
              (fun y => decide (y.securityLevel ≤ x.securityLevel))) := by
          apply List.filter_congr
          intro x hx
          rw [List.all_append]
          by_cases hPx : t.all (fun y => decide (y.securityLevel ≤ x.securityLevel)) = true
          · have hmx : m.securityLevel ≤ x.securityLevel :=
              of_decide_eq_true (List.all_eq_true.mp hPx m hmt)
            have hexx : e.securityLevel ≤ x.securityLevel :=
              le_of_lt (lt_of_lt_of_le hml hmx)
            simp [hPx, hexx]
          · have hPxf := eq_false_of_ne_true hPx
            rw [hPxf]
            rfl
        rw [hfe, hft, List.append_nil]
      rw [hrhs, ← ih]
      cases htf : List.foldl bestFold none t with
      | none =>
        exfalso
        have := bestLevel_none t htf
        rw [this] at hmt
        exact absurd hmt (List.not_mem_nil m)
      | some b =>
        have hb := bestLevel_none_some t b htf
        have hnble : ¬ b.securityLevel ≤ e.securityLevel := by
          intro hc
          exact hme (le_trans (hb.2 m hmt) hc)
        simp [bestFold, hnble]

theorem bestFiltered_filter (accept : EndpointDescription → Bool)
    (l : List EndpointDescription) :
    ∀ acc, List.foldl (fun best e => if accept e then bestFold best e else best) acc l =
      List.foldl bestFold acc (l.filter accept) := by
  induction l with
  | nil => intro acc; rfl
  | cons e t ih =>
    intro acc
    rw [List.foldl_cons]
    by_cases he : accept e = true
    · rw [if_pos he, List.filter_cons_of_pos he, List.foldl_cons, ih]
    · have hef := eq_false_of_ne_true he
      rw [if_neg (by simp [hef]), List.filter_cons_of_neg (by simp [hef]), ih]

theorem bestFiltered_eq_lastBest (accept : EndpointDescription → Bool)
    (ee : List EndpointDescription) :
    bestFiltered accept ee = specLastBest accept ee := by
  unfold bestFiltered specLastBest
  rw [bestFiltered_filter]
  exact bestLevel_eq_lastMax _

theorem bestAutoFold_some (l : List EndpointDescription) (b : EndpointDescription) :
    ∃ r, List.foldl bestAutoFold (some b) l = some r ∧
      (b.securityMode ≤ r.securityMode ∧ b.securityLevel ≤ r.securityLevel) ∧
      (r = b ∨ r ∈ l) ∧
      ∀ e ∈ l, r.securityMode ≤ e.securityMode → r.securityLevel ≤ e.securityLevel →
        e.securityMode = r.securityMode ∧ e.securityLevel = r.securityLevel := by
  induction l generalizing b with
  | nil => exact ⟨b, rfl, ⟨le_refl _, le_refl _⟩, Or.inl rfl, by simp⟩
  | cons e t ih =>
    rw [List.foldl_cons]
    by_cases h : b.securityMode ≤ e.securityMode ∧ b.securityLevel ≤ e.securityLevel
    · have hstep : bestAutoFold (some b) e = some e := by simp [bestAutoFold, h]
      rw [hstep]
      obtain ⟨r, hr, ⟨h1, h2⟩, hmem, hall⟩ := ih e
      refine ⟨r, hr, ⟨le_trans h.1 h1, le_trans h.2 h2⟩, ?_, ?_⟩
      · rcases hmem with h' | h'
        · exact Or.inr (by simp [h'])
        · exact Or.inr (List.mem_cons_of_mem _ h')
      · intro x hx hx1 hx2
        rcases List.mem_cons.mp hx with h' | h'
        · subst h'
          exact ⟨Nat.le_antisymm h1 hx1, Nat.le_antisymm h2 hx2⟩
        · exact hall x h' hx1 hx2
    · have hstep : bestAutoFold (some b) e = some b := by simp [bestAutoFold, h]
      rw [hstep]
      obtain ⟨r, hr, ⟨h1, h2⟩, hmem, hall⟩ := ih b
      refine ⟨r, hr, ⟨h1, h2⟩, ?_, ?_⟩
      · rcases hmem with h' | h'
        · exact Or.inl h'
        · exact Or.inr (List.mem_cons_of_mem _ h')
      · intro x hx hx1 hx2
        rcases List.mem_cons.mp hx with h' | h'
        · subst h'
          exact absurd ⟨le_trans h1 hx1, le_trans h2 hx2⟩ h
        · exact hall x h' hx1 hx2

theorem bestAuto_maximal (ee : List EndpointDescription) (ep : EndpointDescription)
    (h : bestAuto ee = some ep) :
    ep ∈ ee ∧ ∀ e ∈ ee, ep.securityMode ≤ e.securityMode →
      ep.securityLevel ≤ e.securityLevel →
      e.securityMode = ep.securityMode ∧ e.securityLevel = ep.securityLevel := by
  cases ee with
  | nil => simp [bestAuto] at h
  | cons e t =>
    unfold bestAuto at h
    rw [List.foldl_cons, show bestAutoFold none e = some e from rfl] at h
    obtain ⟨r, hr, ⟨h1, h2⟩, hmem, hall⟩ := bestAutoFold_some t e
    rw [hr] at h
    have hrb : r = ep := Option.some.inj h
    subst hrb
    constructor
    · rcases hmem with h' | h'
      · rw [h']; exact List.mem_cons_self _ _
      · exact List.mem_cons_of_mem _ h'
    · intro x hx hx1 hx2
      rcases List.mem_cons.mp hx with h' | h'
      · subst h'
        exact ⟨Nat.le_antisymm h1 hx1, Nat.le_antisymm h2 hx2⟩
      · exact hall x h' hx1 hx2

/-! ## Claim C1 -/

/-- C1 counterexample: the claim that negotiation selects the candidate
maximal in the lexicographic (securityMode, securityLevel) pair with
first-seen ties kept is false on the code.  With no constraints the code
keeps epNoneLevel9 (mode None, level 9) over epSignLevel5 (mode Sign,
level 5) although the latter is lexicographically greater, and with mode
fixed to Sign an exact tie is resolved to the later candidate epSignB,
not the first-seen epSignA. -/
theorem C1_selection_counterexample :
    findEndpoint cfgAutoAuto [epNoneLevel9, epSignLevel5] = Except.ok epNoneLevel9 ∧
    specSelectEndpoint cfgAutoAuto MessageSecurityModeInvalid ""
      [epNoneLevel9, epSignLevel5] = some epSignLevel5 ∧
    findEndpoint cfgSignAuto [epSignA, epSignB] = Except.ok epSignB ∧
    specSelectEndpoint cfgSignAuto MessageSecurityModeSign ""
      [epSignA, epSignB] = some epSignA :=
  ⟨rfl, rfl, rfl, rfl⟩

/-- C1 (amended): in the unconstrained case the scan keeps a candidate
only if both its securityMode and securityLevel are greater or equal, so
the selected endpoint is maximal in the componentwise partial order on
(securityMode, securityLevel), not necessarily in the lexicographic pair
order; in the mode-only, policy-only and both-constrained cases the scan
selects the candidate with maximal securityLevel among those passing the
filter; in all cases an exact tie is resolved to the last-seen candidate
in discovery order, not the first-seen one. -/
theorem C1_selection_amended (c : ServerConfig) (mode : Nat) (policy : String)
    (ee : List EndpointDescription) :
    ((c.secMode == "auto" && c.secPolicy == "auto") = true →
      ∀ ep, selectEndpoint c mode policy ee = some ep →
        ep ∈ ee ∧ ∀ e ∈ ee, ep.securityMode ≤ e.securityMode →
          ep.securityLevel ≤ e.securityLevel →
          e.securityMode = ep.securityMode ∧ e.securityLevel = ep.securityLevel) ∧
    ((!(c.secMode == "auto") && c.secPolicy == "auto") = true →
      selectEndpoint c mode policy ee =
        specLastBest (fun e => e.securityMode == mode) ee) ∧
    ((c.secMode == "auto" && !(c.secPolicy == "auto")) = true →
      selectEndpoint c mode policy ee =
        specLastBest (fun e => e.securityPolicyURI == policy) ee) ∧
    ((!(c.secMode == "auto") && !(c.secPolicy == "auto")) = true →
      selectEndpoint c mode policy ee =
        specLastBest (fun e =>
          e.securityPolicyURI == policy && e.securityMode == mode) ee) := by
  refine ⟨?_, ?_, ?_, ?_⟩
  · intro hb ep hsel
    simp only [selectEndpoint, hb, if_true] at hsel
    exact bestAuto_maximal ee ep hsel
  · intro hb
    obtain ⟨h1, h2⟩ := Bool.and_eq_true_iff.mp hb
    have h1f : (c.secMode == "auto") = false := by simpa using h1
    simp only [selectEndpoint, h1f, h2, Bool.false_and, Bool.not_false, Bool.true_and,
      if_false, if_true]
    exact bestFiltered_eq_lastBest _ ee
  · intro hb
    obtain ⟨h1, h2⟩ := Bool.and_eq_true_iff.mp hb
    have h2f : (c.secPolicy == "auto") = false := by simpa using h2
    simp only [selectEndpoint, h1, h2f, Bool.true_and, Bool.and_false, Bool.not_true,
      Bool.false_and, Bool.not_false, if_false, if_true]
    exact bestFiltered_eq_lastBest _ ee
  · intro hb
    obtain ⟨h1, h2⟩ := Bool.and_eq_true_iff.mp hb
    have h1f : (c.secMode == "auto") = false := by simpa using h1
    have h2f : (c.secPolicy == "auto") = false := by simpa using h2
    simp only [selectEndpoint, h1f, h2f, Bool.false_and, Bool.and_false, Bool.not_false,
      Bool.true_and, if_false]
    exact bestFiltered_eq_lastBest _ ee

/-- C1 witness: the amended claim applied to the concrete mode-constrained
tie input of the counterexample. -/
theorem C1_selection_witness :
    (!(cfgSignAuto.secMode == "auto") && (cfgSignAuto.secPolicy == "auto")) = true ∧
    selectEndpoint cfgSignAuto MessageSecurityModeSign "" [epSignA, epSignB] =
      specLastBest (fun e => e.securityMode == MessageSecurityModeSign)
        [epSignA, epSignB] := by
  refine ⟨rfl, ?_⟩
  exact (C1_selection_amended cfgSignAuto MessageSecurityModeSign ""
    [epSignA, epSignB]).2.1 rfl

/-! ## Claim C2 -/

/-- C2: after policy and mode resolution in findEndpoint, if the resolved
mode is the none mode or the resolved policy is the none-policy URI, both
are forced to none, and the rest of negotiation runs with mode none and
the none-policy URI regardless of the prior values. -/
theorem C2_force_none (c : ServerConfig) (ee : List EndpointDescription)
    (m : Nat) (p : String)
    (hp : resolvePolicy c.secPolicy = Except.ok p)
    (hm : resolveMode c.secMode = Except.ok m)
    (h : m = MessageSecurityModeNone ∨ p = SecurityPolicyNoneURI) :
    forceNone m p = (MessageSecurityModeNone, SecurityPolicyNoneURI) ∧
    findEndpoint c ee = negotiate c MessageSecurityModeNone SecurityPolicyNoneURI ee := by
  have hforce : forceNone m p = (MessageSecurityModeNone, SecurityPolicyNoneURI) := by
    rcases h with h | h <;> simp [forceNone, h]
  refine ⟨hforce, ?_⟩
  unfold findEndpoint
  rw [hp, hm]
  dsimp only
  rw [hforce]

/-- C2 witness: a config with mode none and policy auto is forced to the
all-none pair even though the resolved policy was empty. -/
theorem C2_force_none_witness :
    resolvePolicy cfgNoneAuto.secPolicy = Except.ok "" ∧
    resolveMode cfgNoneAuto.secMode = Except.ok MessageSecurityModeNone ∧
    forceNone MessageSecurityModeNone "" =
      (MessageSecurityModeNone, SecurityPolicyNoneURI) ∧
    findEndpoint cfgNoneAuto [epNoneLevel9] =
      negotiate cfgNoneAuto MessageSecurityModeNone SecurityPolicyNoneURI [epNoneLevel9] := by
  have h := C2_force_none cfgNoneAuto [epNoneLevel9] MessageSecurityModeNone ""
    rfl rfl (Or.inl rfl)
  exact ⟨rfl, rfl, h.1, h.2⟩

/-! ## Claim C3 -/

/-- C3: when the selection scan yields a surviving candidate that does not
advertise the requested auth token type, findEndpoint fails with the
no-suitable-endpoint error; no fallback to any other candidate is
attempted, whatever else the endpoint list contains. -/
theorem C3_no_fallback (c : ServerConfig) (ee : List EndpointDescription)
    (ep : EndpointDescription) (m : Nat) (p : String)
    (hp : resolvePolicy c.secPolicy = Except.ok p)
    (hm : resolveMode c.secMode = Except.ok m)
    (hsel : selectEndpoint c (forceNone m p).1 (forceNone m p).2 ee = some ep)
    (htok : supportsToken ep (UserTokenTypeFromString c.authMode) = false) :
    findEndpoint c ee = Except.error FindEndpointError.noSuitableEndpoint := by
  unfold findEndpoint
  rw [hp, hm]
  dsimp only
  unfold negotiate
  rw [hsel]
  dsimp only
  rw [htok]
  simp

/-- C3 witness: with both constraints auto and auth mode UserName, the
scan picks the high-security endpoint epHighAnon, which lacks the
UserName token, and negotiation fails although the lower-ranked
epLowUser advertises it. -/
theorem C3_no_fallback_witness :
    selectEndpoint cfgUserAuto
      (forceNone MessageSecurityModeInvalid "").1
      (forceNone MessageSecurityModeInvalid "").2
      [epLowUser, epHighAnon] = some epHighAnon ∧
    supportsToken epHighAnon (UserTokenTypeFromString cfgUserAuto.authMode) = false ∧
    supportsToken epLowUser (UserTokenTypeFromString cfgUserAuto.authMode) = true ∧
    findEndpoint cfgUserAuto [epLowUser, epHighAnon] =
      Except.error FindEndpointError.noSuitableEndpoint := by
  refine ⟨rfl, rfl, rfl, ?_⟩
  exact C3_no_fallback cfgUserAuto [epLowUser, epHighAnon] epHighAnon
    MessageSecurityModeInvalid "" rfl rfl rfl rfl

/-! ## Claim C9 -/

/-- C9 counterexample: the claim that session building fails with an
invalid-config error for auth mode UserName with an empty username is
false on the code: authenticationOptions performs no validation and
returns a normal options list carrying the empty username. -/
theorem C9_username_counterexample :
    authenticationOptions cfgEmptyUser epNoneLevel9 =
      [OpcuaOption.authUsername "" "pw",
       OpcuaOption.securityFromEndpoint epNoneLevel9 UserTokenType.userName] :=
  rfl

/-- C9 (amended): session building performs no credential validation:
for any config with auth mode UserName, including one whose username is
empty, the authentication options are AuthUsername with the configured
username and password followed by SecurityFromEndpoint with the UserName
token type, and no error is raised. -/
theorem C9_username_amended (c : ServerConfig) (e : EndpointDescription)
    (h : c.authMode = "UserName") :
    authenticationOptions c e =
      [OpcuaOption.authUsername c.username c.password,
       OpcuaOption.securityFromEndpoint e UserTokenType.userName] := by
  unfold authenticationOptions
  rw [h]
  rfl

/-- C9 witness: the amended claim applied to the empty-username config. -/
theorem C9_username_witness :
    cfgEmptyUser.authMode = "UserName" ∧
    authenticationOptions cfgEmptyUser epNoneLevel9 =
      [OpcuaOption.authUsername cfgEmptyUser.username cfgEmptyUser.password,
       OpcuaOption.securityFromEndpoint epNoneLevel9 UserTokenType.userName] :=
  ⟨rfl, C9_username_amended cfgEmptyUser epNoneLevel9 rfl⟩

/-! ## Helper lemmas about the per-metric loop of Collect -/

theorem perMetricLoop_length (c : Collector) (resp : ReadResponse) :
    ∀ (mm : List OpcuaMetric) (idx : Nat),
      (perMetricLoop c resp idx mm).length = mm.length := by
  intro mm
  induction mm with
  | nil => intro idx; rfl
  | cons om t ih =>
    intro idx
    simp [perMetricLoop, ih]

theorem perMetricLoop_get? (c : Collector) (resp : ReadResponse) :
    ∀ (mm : List OpcuaMetric) (idx j : Nat),
      (perMetricLoop c resp idx mm).get? j =
        (mm.get? j).map (fun om =>
          match getOpcuaValueFromIndex resp (idx + j) with
          | Except.error e => getErrorMetric c om.metric e
          | Except.ok v => getMetricWithValue c om.metric v) := by
  intro mm
  induction mm with
  | nil => intro idx j; rfl
  | cons om t ih =>
    intro idx j
    cases j with
    | zero => simp [perMetricLoop]
    | succ j =>
      have harith : idx + 1 + j = idx + (j + 1) := by omega
      simp only [perMetricLoop, List.get?_cons_succ]
      rw [ih (idx + 1) j, harith]

theorem perMetricSamples_get? (c : Collector) (resp : ReadResponse)
    (i : Nat) (om : OpcuaMetric) (r : DataValue)
    (hm : c.opcuaMetricsCache.get? i = some om)
    (hr : resp.results.get? i = some r) :
    (perMetricSamples c resp).get? i = some (pairSample c om r) := by
  unfold perMetricSamples
  rw [perMetricLoop_get? c resp _ 0 i, hm]
  have hval : getOpcuaValueFromIndex resp (0 + i) =
      (if r.status == StatusOK then Except.ok r.value
       else Except.error ("invalid status " ++ toString r.status)) := by
    unfold getOpcuaValueFromIndex
    rw [Nat.zero_add, hr]
  by_cases hst : (r.status == StatusOK) = true
  · rw [hval, if_pos hst]
    simp [pairSample, hst]
  · have hstf := eq_false_of_ne_true hst
    rw [hval, if_neg (by simp [hstf])]
    simp [pairSample, hstf]

theorem perMetricLoop_count (c : Collector) (resp : ReadResponse) :
    ∀ (mm : List OpcuaMetric) (rr : List DataValue) (idx : Nat),
      (∀ om ∈ mm, wellLabeled om.metric = true) →
      resp.results.drop idx = rr →
      mm.length = rr.length →
      (perMetricLoop c resp idx mm).countP isInvalidSample = rr.countP isBadStatus := by
  intro mm
  induction mm with
  | nil =>
    intro rr idx _ _ hlen
    have : rr = [] := List.length_eq_zero.mp hlen.symm
    rw [this]
    rfl
  | cons om t ih =>
    intro rr idx hwl hdrop hlen
    cases rr with
    | nil => simp at hlen
    | cons r rr' =>
      have hget : resp.results.get? idx = some r := by
        have h0 : (resp.results.drop idx).get? 0 = some r := by rw [hdrop]; rfl
        rw [List.get?_drop] at h0
        simpa using h0
      have hdrop' : resp.results.drop (idx + 1) = rr' := by
        have hd : resp.results.drop (idx + 1) = (resp.results.drop idx).drop 1 := by
          rw [List.drop_drop, Nat.add_comm]
        rw [hd, hdrop]
        rfl
      have hwl0 : wellLabeled om.metric = true := hwl om (List.mem_cons_self _ _)
      have hlen' : t.length = rr'.length := by simpa using hlen
      have hih := ih rr' (idx + 1)
        (fun x hx => hwl x (List.mem_cons_of_mem _ hx)) hdrop' hlen'
      have hval : getOpcuaValueFromIndex resp idx =
          (if r.status == StatusOK then Except.ok r.value
           else Except.error ("invalid status " ++ toString r.status)) := by
        unfold getOpcuaValueFromIndex
        rw [hget]
      simp only [perMetricLoop]
      by_cases hst : (r.status == StatusOK) = true
      · have hok : getOpcuaValueFromIndex resp idx = Except.ok r.value := by
          rw [hval, if_pos hst]
        have hhead : (match getOpcuaValueFromIndex resp idx with
            | Except.error e => getErrorMetric c om.metric e
            | Except.ok v => getMetricWithValue c om.metric v) =
            getMetricWithValue c om.metric r.value := by rw [hok]
        have hbad : isBadStatus r = false := by simp [isBadStatus, hst]
        have hconst : isInvalidSample (getMetricWithValue c om.metric r.value) = false := by
          unfold wellLabeled at hwl0
          simp [getMetricWithValue, hwl0, isInvalidSample]
        rw [hhead, List.countP_cons, List.countP_cons, hih, hconst, hbad]
      · have hstf := eq_false_of_ne_true hst
        have herr : getOpcuaValueFromIndex resp idx =
            Except.error ("invalid status " ++ toString r.status) := by
          rw [hval, if_neg (by simp [hstf])]
        have hhead : (match getOpcuaValueFromIndex resp idx with
            | Except.error e => getErrorMetric c om.metric e
            | Except.ok v => getMetricWithValue c om.metric v) =
            getErrorMetric c om.metric ("invalid status " ++ toString r.status) := by rw [herr]
        have hbad : isBadStatus r = true := by simp [isBadStatus, hstf]
        have hinv : isInvalidSample
            (getErrorMetric c om.metric ("invalid status " ++ toString r.status)) = true := rfl
        rw [hhead, List.countP_cons, List.countP_cons, hih, hinv, hbad]

/-! ## Claim C4 -/

/-- C4: in a poll round over a cache of N entries, a successful batched
read with N results yields exactly N per-metric samples, sample i built
from result i and cache entry i (a non-Good status at i yields one error
sample carrying that metric name and labels, a Good status one normal
sample), and the number of error samples equals the number of non-Good
results; a request-level read failure yields exactly one error sample and
no per-metric or instrumentation samples, and Collect still returns
normally (the collector state, including the session handle, is
untouched since Collect is read-only). -/
theorem C4_poll_round (read : List UaNodeID → Except String ReadResponse)
    (readDuration walkDuration scrapeDuration : Int) (c : Collector) :
    (∀ resp, read (nodeIDsOf c) = Except.ok resp →
      resp.results.length = c.opcuaMetricsCache.length →
      (∀ om ∈ c.opcuaMetricsCache, wellLabeled om.metric = true) →
      Collect read readDuration walkDuration scrapeDuration c =
        perMetricSamples c resp ++
        c.statsMetricsCache.map (fun m =>
          getMetricWithValue c m
            (statValue resp readDuration walkDuration scrapeDuration m.name)) ∧
      (perMetricSamples c resp).length = c.opcuaMetricsCache.length ∧
      (∀ i om r, c.opcuaMetricsCache.get? i = some om →
        resp.results.get? i = some r →
        (perMetricSamples c resp).get? i = some (pairSample c om r) ∧
        (isBadStatus r = true →
          pairSample c om r =
            Sample.invalid c.errorDesc
              (ErrPayload.metricErr om.metric.name om.metric.properties.labels
                ("invalid status " ++ toString r.status))) ∧
        (isBadStatus r = false →
          pairSample c om r =
            Sample.const om.metric.properties.desc om.metric.properties.typ r.value
              om.metric.properties.labelsValues)) ∧
      (perMetricSamples c resp).countP isInvalidSample =
        resp.results.countP isBadStatus) ∧
    (∀ e, read (nodeIDsOf c) = Except.error e →
      Collect read readDuration walkDuration scrapeDuration c =
        [Sample.invalid c.errorDesc (ErrPayload.scrapeErr e)]) := by
  constructor
  · intro resp hread hlen hwl
    refine ⟨?_, ?_, ?_, ?_⟩
    · unfold Collect scrapeTarget
      rw [hread]
    · exact perMetricLoop_length c resp _ 0
    · intro i om r hm hr
      refine ⟨perMetricSamples_get? c resp i om r hm hr, ?_, ?_⟩
      · intro hbad
        have hstf : (r.status == StatusOK) = false := by
          unfold isBadStatus at hbad
          simpa using hbad
        simp [pairSample, hstf, getErrorMetric]
      · intro hgood
        have hst : (r.status == StatusOK) = true := by
          unfold isBadStatus at hgood
          simpa using hgood
        have hwl0 : wellLabeled om.metric = true :=
          hwl om (List.get?_mem hm)
        unfold wellLabeled at hwl0
        simp [pairSample, hst, getMetricWithValue, hwl0]
    · exact perMetricLoop_count c resp _ resp.results 0 hwl rfl hlen.symm
  · intro e hread
    unfold Collect scrapeTarget
    rw [hread]

/-- C4 witness: the poll theorem applied to a concrete three-entry cache
with one non-Good result (one error sample among three), and to a
request-level failure (exactly one error sample). -/
theorem C4_poll_round_witness :
    respW.results.length = colW.opcuaMetricsCache.length ∧
    (∀ om ∈ colW.opcuaMetricsCache, wellLabeled om.metric = true) ∧
    (perMetricSamples colW respW).countP isInvalidSample =
      respW.results.countP isBadStatus ∧
    Collect readFailW 1 2 3 colW =
      [Sample.invalid colW.errorDesc (ErrPayload.scrapeErr "boom")] := by
  refine ⟨rfl, by decide, ?_, ?_⟩
  · exact ((C4_poll_round readW 1 2 3 colW).1 respW rfl rfl (by decide)).2.2.2
  · exact (C4_poll_round readFailW 1 2 3 colW).2 "boom" rfl

/-! ## Helper lemmas about validation and cache building -/

theorem validateMetricsFrom_err :
    ∀ (l : List Metric) (i : Nat) (m : Metric), m ∈ l →
      (m.name = "" ∨ m.help = "" ∨ m.nodeID = "" ∨ m.typ = "") →
      ∃ e, validateMetricsFrom i l = Except.error e := by
  intro l
  induction l with
  | nil => intro i m hm _; exact absurd hm (List.not_mem_nil m)
  | cons a t ih =>
    intro i m hm hbad
    by_cases h1 : (a.name == "") = true
    · exact ⟨_, by simp only [validateMetricsFrom]; rw [if_pos h1]⟩
    · by_cases h2 : (a.help == "") = true
      · exact ⟨_, by simp only [validateMetricsFrom]; rw [if_neg h1, if_pos h2]⟩
      · by_cases h3 : (a.nodeID == "") = true
        · exact ⟨_, by simp only [validateMetricsFrom]; rw [if_neg h1, if_neg h2, if_pos h3]⟩
        · by_cases h4 : (a.typ == "") = true
          · have hres : validateMetricsFrom i (a :: t) =
                Except.error
                  ("missing field type in metrics configuration of metric " ++ toString i) := by
              simp only [validateMetricsFrom]
              rw [if_neg h1, if_neg h2, if_neg h3, if_pos h4]
            exact ⟨_, hres⟩
          · have hrest : validateMetricsFrom i (a :: t) = validateMetricsFrom (i + 1) t := by
              simp only [validateMetricsFrom]
              rw [if_neg h1, if_neg h2, if_neg h3, if_neg h4]
            rcases List.mem_cons.mp hm with h | h
            · exfalso
              subst h
              rcases hbad with hb | hb | hb | hb
              · exact h1 (by simp [hb])
              · exact h2 (by simp [hb])
              · exact h3 (by simp [hb])
              · exact h4 (by simp [hb])
            · rw [hrest]
              exact ih (i + 1) m h hbad

theorem buildCache_ok (parse : String → Option UaNodeID) :
    ∀ (l : List Metric), (∀ m ∈ l, (parse m.nodeID).isSome = true) →
      ∃ mm, buildCache parse l = Except.ok mm ∧ mm.length = l.length ∧
        ∀ i m, l.get? i = some m → ∃ nid, parse m.nodeID = some nid ∧
          mm.get? i = some { nodeID := m.nodeID
                             nodeReadValueID := nid
                             metric := newMetric m.name m.help (getMetricValueType m.typ) m.labels } := by
  intro l
  induction l with
  | nil =>
    intro _
    refine ⟨[], rfl, rfl, ?_⟩
    intro i m hm
    simp at hm
  | cons a t ih =>
    intro hall
    obtain ⟨nid, hnid⟩ := Option.isSome_iff_exists.mp (hall a (List.mem_cons_self _ _))
    obtain ⟨mm, hmm, hlen, hget⟩ := ih (fun m hm => hall m (List.mem_cons_of_mem _ hm))
    refine ⟨{ nodeID := a.nodeID
              nodeReadValueID := nid
              metric := newMetric a.name a.help (getMetricValueType a.typ) a.labels } :: mm,
      ?_, ?_, ?_⟩
    · simp only [buildCache]
      rw [hnid, hmm]
    · simp [hlen]
    · intro i m hm
      cases i with
      | zero =>
        have ham : a = m := by simpa using hm
        subst ham
        exact ⟨nid, hnid, by simp⟩
      | succ i =>
        simpa using hget i m (by simpa using hm)

/-! ## Claim C5 -/

/-- C5: a metrics configuration with an empty metric list fails
validation; a configuration with any entry missing name, help, nodeid or
type fails validation; and a configuration all of whose node identifiers
parse builds a cache of exactly the same length in the same order, entry
i derived from metric i. -/
theorem C5_validate_and_cache (parse : String → Option UaNodeID) (cfg : MetricsConfig) :
    (cfg.metrics = [] → ∃ e, cfg.validate = Except.error e) ∧
    (∀ m ∈ cfg.metrics, (m.name = "" ∨ m.help = "" ∨ m.nodeID = "" ∨ m.typ = "") →
      ∃ e, cfg.validate = Except.error e) ∧
    ((∀ m ∈ cfg.metrics, (parse m.nodeID).isSome = true) →
      ∃ mm, buildCache parse cfg.metrics = Except.ok mm ∧
        mm.length = cfg.metrics.length ∧
        ∀ i m, cfg.metrics.get? i = some m → ∃ nid, parse m.nodeID = some nid ∧
          mm.get? i = some { nodeID := m.nodeID
                             nodeReadValueID := nid
                             metric := newMetric m.name m.help (getMetricValueType m.typ) m.labels }) := by
  refine ⟨?_, ?_, ?_⟩
  · intro h
    unfold MetricsConfig.validate
    rw [h]
    exact ⟨_, rfl⟩
  · intro m hm hbad
    unfold MetricsConfig.validate
    have hne : cfg.metrics ≠ [] := List.ne_nil_of_mem hm
    have hlen : cfg.metrics.length ≠ 0 := fun hc => hne (List.length_eq_zero.mp hc)
    have hlenb : (cfg.metrics.length == 0) = false := beq_eq_false_iff_ne.mpr hlen
    rw [if_neg (by simp [hlenb])]
    exact validateMetricsFrom_err cfg.metrics 0 m hm hbad
  · exact buildCache_ok parse cfg.metrics

/-- C5 witness: the claim applied to a concrete fully valid three-entry
configuration (cache of length three in input order) and to the empty
configuration (validation failure). -/
theorem C5_validate_and_cache_witness :
    (∀ m ∈ cfgMetricsW.metrics, (parseW m.nodeID).isSome = true) ∧
    (∃ mm, buildCache parseW cfgMetricsW.metrics = Except.ok mm ∧
      mm.length = cfgMetricsW.metrics.length ∧
      ∀ i m, cfgMetricsW.metrics.get? i = some m → ∃ nid, parseW m.nodeID = some nid ∧
        mm.get? i = some { nodeID := m.nodeID
                           nodeReadValueID := nid
                           metric := newMetric m.name m.help (getMetricValueType m.typ) m.labels }) ∧
    (∃ e, MetricsConfig.validate { metrics := [] } = Except.error e) := by
  refine ⟨by decide, ?_, ?_⟩
  · exact (C5_validate_and_cache parseW cfgMetricsW).2.2 (by decide)
  · exact (C5_validate_and_cache parseW { metrics := [] }).1 rfl

/-! ## Claim C6 -/

/-- C6 evaluation at the failing input: a reload whose new configuration
passes field validation but contains the unparsable node id bogus aborts
the cache build, leaves the previously installed cache untouched, and
reports no error to the reload caller: loadMetricsCache returns the
invalid-node-id error, yet ReloadMetrics discards it and the handler
outcome carries none where the claim requires the error upstream. -/
theorem C6_reload_error_swallowed :
    buildCache parseW cfgBad.metrics = Except.error "invalid node id" ∧
    (colOld.loadMetricsCache parseW cfgBad).2 = Except.error "invalid node id" ∧
    Collector.ReloadMetrics parseW colOld cfgBad = colOld ∧
    reloadConfigHandler (Except.ok "newyaml") unserBad parseW cfgOldMetrics colOld =
      (cfgBad, colOld, none) :=
  ⟨rfl, rfl, rfl, rfl⟩

/-! ## Claim C8 -/

/-- C8: a reload, successful or failed, changes at most the metric cache:
the session handle opcuaClient and every other Collector field are
identical before and after ReloadMetrics. -/
theorem C8_reload_frame (parse : String → Option UaNodeID) (c : Collector)
    (cfg : MetricsConfig) :
    (Collector.ReloadMetrics parse c cfg).serverConfig = c.serverConfig ∧
    (Collector.ReloadMetrics parse c cfg).opcuaClient = c.opcuaClient ∧
    (Collector.ReloadMetrics parse c cfg).statsMetricsCache = c.statsMetricsCache ∧
    (Collector.ReloadMetrics parse c cfg).errorDesc = c.errorDesc := by
  unfold Collector.ReloadMetrics Collector.loadMetricsCache
  cases buildCache parse cfg.metrics <;> simp

/-! ## Claim C10 -/

/-- C10: when reading the metrics configuration file fails with a message
containing the no-such-file marker, LoadMetricsConfig succeeds and leaves
the metrics configuration unchanged (empty at startup), so startup and
reload with a missing file silently succeed with zero metrics; the
zero-entries validation failure exists but only applies to a parsed
file. -/
theorem C10_missing_file (msg : String)
    (unserialize : String → Except String MetricsConfig) (current : MetricsConfig)
    (h : strContains msg "no such file or directory" = true) :
    LoadMetricsConfig (Except.error msg) unserialize current = (current, none) ∧
    ∃ e, MetricsConfig.validate { metrics := [] } = Except.error e := by
  constructor
  · unfold LoadMetricsConfig
    dsimp only
    rw [if_pos h]
  · exact ⟨_, rfl⟩

/-- C10 witness: the missing-file theorem applied to a concrete error
message and the empty startup configuration. -/
theorem C10_missing_file_witness :
    strContains msgNoFile "no such file or directory" = true ∧
    LoadMetricsConfig (Except.error msgNoFile) unserBad { metrics := [] } =
      ({ metrics := [] }, none) := by
  refine ⟨rfl, ?_⟩
  exact (C10_missing_file msgNoFile unserBad { metrics := [] } rfl).1

end OpcuaExporter
